import Mathlib

/-!
Shallow embedding of the spectral convolution layer
`src/keras_addon/layers/fno/base_spectral_conv.py` (class `BaseSpectralConv`),
together with theorems settling the specification claims about it.

Conventions:
* Python integers are `Int`; Python `//` is `Int.fdiv` (floor division) and
  Python `%` is `Int.emod` (both nonnegative results for positive divisors).
* Tensors are total functions from (unbounded) natural indices to a field;
  every operation of the layer reads indices only inside the source's shapes,
  and shape information is passed explicitly where an operation (for example
  `numpy.roll`) depends on it.
* Fallible code (constructor validation, `build`, `from_config`) returns
  `Except`.
-/

namespace SpectralConv

/-- Python floor division `a // b`. -/
def pyDiv (a b : Int) : Int := Int.fdiv a b

/-- Python modulo `a % b` (sign of the divisor, like `Int.emod` for positive divisors). -/
def pyMod (a b : Int) : Int := a % b

/-! ### Constructor validation (`BaseSpectralConv.__init__`, lines 48-65) -/

/-- Kind of exception the constructor can raise: `ValueError` (invalid argument)
or `NotImplementedError` (unsupported feature). -/
inductive ErrKind where
  | invalidArgument
  | notImplemented
deriving DecidableEq

/-- Errors raised by `BaseSpectralConv.__init__`. -/
inductive ConstructError where
  | invalidFilters
  | invalidModes
  | channelsFirstUnsupported
deriving DecidableEq

/-- Exception class of each constructor error: the `filters` and `modes` checks
raise `ValueError`, the `data_format` check raises `NotImplementedError`. -/
def ConstructError.kind : ConstructError → ErrKind
  | .invalidFilters => .invalidArgument
  | .invalidModes => .invalidArgument
  | .channelsFirstUnsupported => .notImplemented

/-- Validation performed eagerly by `BaseSpectralConv.__init__` (lines 48-65),
in source order.  `filters` may be `None` (modelled as `Option Int`): the
positivity check is guarded by `self.filters is not None`.  Python
`not all(self.modes)` is true exactly when some entry equals `0`
(a negative entry is truthy). -/
def initCheck (filters : Option Int) (modes : List Int) (dataFormat : String) :
    Except ConstructError Unit :=
  if (match filters with | some f => decide (f ≤ 0) | none => false) then
    .error .invalidFilters
  else if ¬ (modes.all (fun m => m ≠ 0)) then
    .error .invalidModes
  else if dataFormat = "channels_first" then
    .error .channelsFirstUnsupported
  else
    .ok ()

/-! ### Padding plan and build (`BaseSpectralConv.build`, lines 67-142) -/

/-- Python lexicographic comparison of integer pairs, `x < y`. -/
def pyPairLt (a b : Int × Int) : Bool :=
  a.1 < b.1 || (a.1 = b.1 && a.2 < b.2)

/-- Padding plan computed in `build` (lines 96-101): `(0, 0)` for the batch and
channel axes, then for the `i`-th retained-mode axis a high-side pad of
`s // 2 + 1 - m` when `i` is the last mode index and `s - m` otherwise, where
`s` runs over `input_shape[1:]` (`zip` truncates the channel entry away). -/
def pad_width (modes : List Int) (inputShape : List Int) : List (Int × Int) :=
  [(0, 0), (0, 0)] ++
    ((modes.zip (inputShape.drop 1)).enum.map (fun p =>
      ((0 : Int),
        if p.1 = modes.length - 1 then pyDiv p.2.2 2 + 1 - p.2.1
        else p.2.2 - p.2.1)))

/-- Shape-dependent state materialized by a successful `build`: the shape
`(input_channel, filters, *modes)` shared by the real and imaginary kernels
(line 109) and, when `use_bias`, the bias shape `(filters,) + (1,) * rank`
(line 134). -/
structure BuiltState where
  kernelShape : List Int
  biasShape : Option (List Int)
deriving DecidableEq

/-- Embedding of `BaseSpectralConv.build` (lines 67-142) for the supported
`"channels_last"` format: the padding plan is validated (lines 96-103) before
any weight is allocated; on success the kernel and bias shapes are materialized.
`input_channel = input_shape[-1]` (line 74). -/
def build (filters : Int) (modes : List Int) (inputShape : List Int)
    (useBias : Bool) : Except String BuiltState :=
  if (pad_width modes inputShape).filter (fun x => pyPairLt x (0, 0)) ≠ [] then
    .error ("Too many modes for input shape!")
  else
    .ok
      { kernelShape := inputShape.getLastD 0 :: filters :: modes
        biasShape :=
          if useBias then some (filters :: List.replicate modes.length 1)
          else none }

/-! ### Claim theorems: constructor validation -/

/-- C8: construction raises an invalid-argument error (`ValueError`) whenever
`filters` is a non-positive integer, raises an invalid-argument error whenever
some entry of `modes` is zero, and raises a not-implemented error whenever
`data_format` is `"channels_first"` (given arguments that pass the two
`ValueError` checks, which the source tests first); all three checks run
eagerly in `__init__`, before any build or call, which the embedding captures
by `initCheck` being the constructor itself. -/
theorem c8_constructor_validation :
    (∀ (f : Int) (modes : List Int) (df : String), f ≤ 0 →
      ∃ e, initCheck (some f) modes df = .error e ∧ e.kind = .invalidArgument) ∧
    (∀ (fo : Option Int) (modes : List Int) (df : String), (0 : Int) ∈ modes →
      ∃ e, initCheck fo modes df = .error e ∧ e.kind = .invalidArgument) ∧
    (∀ (fo : Option Int) (modes : List Int),
      (∀ f, fo = some f → 0 < f) → (0 : Int) ∉ modes →
      initCheck fo modes "channels_first" =
        .error .channelsFirstUnsupported) := by
  refine ⟨?_, ?_, ?_⟩
  · intro f modes df hf
    refine ⟨.invalidFilters, ?_, rfl⟩
    simp [initCheck, hf]
  · intro fo modes df h0
    match fo with
    | none =>
      refine ⟨.invalidModes, ?_, rfl⟩
      simp [initCheck, h0]
    | some f =>
      by_cases hf : f ≤ 0
      · exact ⟨.invalidFilters, by simp [initCheck, hf], rfl⟩
      · refine ⟨.invalidModes, ?_, rfl⟩
        simp [initCheck, hf, h0]
  · intro fo modes hfo h0
    match fo with
    | none => simp [initCheck, h0]
    | some f =>
      have hf : ¬ f ≤ 0 := by have := hfo f rfl; omega
      simp [initCheck, hf, h0]

/-- Witness for C8: the three hypotheses are dischargeable on concrete inputs
`filters = -1`, `modes = (0,)`, and `data_format = "channels_first"`. -/
theorem c8_constructor_validation_witness :
    (∃ e, initCheck (some (-1)) [2] "channels_last" = .error e ∧
      e.kind = .invalidArgument) ∧
    (∃ e, initCheck (some 3) [2, 0] "channels_last" = .error e ∧
      e.kind = .invalidArgument) ∧
    initCheck (some 3) [2, 2] "channels_first" =
      .error .channelsFirstUnsupported := by
  refine ⟨?_, ?_, ?_⟩
  · exact c8_constructor_validation.1 (-1) [2] "channels_last" (by decide)
  · exact c8_constructor_validation.2.1 (some 3) [2, 0] "channels_last" (by decide)
  · exact c8_constructor_validation.2.2 (some 3) [2, 2]
      (by intro f hf; cases hf; decide) (by decide)

/-- C10: two acceptance gaps of the constructor: it succeeds when `filters` is
`None` (the positivity check is guarded by `is not None`), and it succeeds when
`modes` contains negative integers (only entries equal to zero are rejected). -/
theorem c10_constructor_acceptance_gaps :
    (∀ (modes : List Int), (0 : Int) ∉ modes →
      initCheck none modes "channels_last" = .ok ()) ∧
    (∀ (f : Int) (modes : List Int), 0 < f → (∀ m ∈ modes, m < 0) →
      initCheck (some f) modes "channels_last" = .ok ()) := by
  constructor
  · intro modes h0
    simp [initCheck, h0]
  · intro f modes hf hneg
    have h0 : (0 : Int) ∉ modes := by
      intro hm
      have := hneg 0 hm
      omega
    have hf' : ¬ f ≤ 0 := by omega
    simp [initCheck, hf', h0]

/-! ### Claim theorems: padding plan (C7) -/

/-- Helper: zipping a list with a longer list ignores the extra tail, so
`zip(modes, input_shape[1:])` pairs each mode with its spatial extent and drops
the trailing channel entry. -/
theorem zip_append_of_length_eq {α β : Type} (l₁ : List α) (l₂ : List β)
    (r : List β) (h : l₁.length = l₂.length) : l₁.zip (l₂ ++ r) = l₁.zip l₂ := by
  induction l₁ generalizing l₂ with
  | nil => simp
  | cons a t ih =>
    match l₂ with
    | [] => simp at h
    | b :: t₂ =>
      simp only [List.cons_append, List.zip_cons_cons, List.cons.injEq, true_and]
      exact ih t₂ (by simpa using h)

/-- Helper: element of a zip at a valid index, in terms of `getD`. -/
theorem zip_get?_eq {α β : Type} (d₁ : α) (d₂ : β)
    (l₁ : List α) (l₂ : List β) (i : Nat) (h₁ : i < l₁.length)
    (h₂ : i < l₂.length) :
    (l₁.zip l₂).get? i = some (l₁.getD i d₁, l₂.getD i d₂) := by
  induction i generalizing l₁ l₂ with
  | zero =>
    match l₁, l₂ with
    | a :: t₁, b :: t₂ => simp
  | succ n ih =>
    match l₁, l₂ with
    | a :: t₁, b :: t₂ =>
      simp only [List.zip_cons_cons, List.get?_cons_succ, List.getD_cons_succ]
      exact ih t₁ t₂ (by simpa using h₁) (by simpa using h₂)

/-- High-side pad width the claim assigns to the `i`-th spatial axis:
`extent - mode` everywhere except the last axis, which gets
`extent // 2 + 1 - mode`. -/
def padHigh (modes spatial : List Int) (i : Nat) : Int :=
  if i = modes.length - 1 then pyDiv (spatial.getD i 0) 2 + 1 - modes.getD i 0
  else spatial.getD i 0 - modes.getD i 0

/-- C7: for an input shape `(batch, *spatial, channels)` the padding plan
assigns `(0, 0)` to the batch and channel axes and `(0, padHigh i)` to the
`i`-th spatial axis, where `padHigh i` is `extent - mode` for every spatial
axis except the last and `extent // 2 + 1 - mode` for the last; `build`
raises the shape-incompatibility error — returning no weight state, hence
allocating no weights — exactly when some `padHigh i` is negative, and
succeeds otherwise. -/
theorem c7_build_pad_plan (filters batch ch : Int) (useBias : Bool)
    (modes spatial : List Int) (hlen : modes.length = spatial.length) :
    (pad_width modes (batch :: (spatial ++ [ch]))).take 2 = [(0, 0), (0, 0)] ∧
    (∀ i, i < modes.length →
      (pad_width modes (batch :: (spatial ++ [ch]))).get? (i + 2) =
        some (0, padHigh modes spatial i)) ∧
    ((∃ e, build filters modes (batch :: (spatial ++ [ch])) useBias = .error e) ↔
      ∃ i, i < modes.length ∧ padHigh modes spatial i < 0) := by
  have hzip : modes.zip ((batch :: (spatial ++ [ch])).drop 1) = modes.zip spatial := by
    simpa using zip_append_of_length_eq modes spatial [ch] hlen
  refine ⟨?_, ?_, ?_⟩
  · simp [pad_width]
  · intro i hi
    simp only [pad_width, hzip, List.cons_append, List.nil_append,
      List.get?_cons_succ, List.get?_map, List.get?_enum]
    rw [zip_get?_eq 0 0 modes spatial i hi (hlen ▸ hi)]
    simp [padHigh]
  · constructor
    · rintro ⟨e, he⟩
      rw [build] at he
      split at he
      case isTrue hcond =>
        obtain ⟨p, hp⟩ := List.exists_mem_of_ne_nil _ hcond
        rw [List.mem_filter] at hp
        obtain ⟨hp, hlt⟩ := hp
        simp only [pad_width, hzip, List.cons_append, List.nil_append,
          List.mem_cons, List.mem_map] at hp
        rcases hp with h | h | ⟨a, ha, hfa⟩
        · subst h; simp [pyPairLt] at hlt
        · subst h; simp [pyPairLt] at hlt
        · rw [List.mem_enum_iff_get?] at ha
          obtain ⟨hlt', _⟩ := List.get?_eq_some.mp ha
          have ha1 : a.1 < modes.length := by
            rw [List.length_zip] at hlt'
            omega
          refine ⟨a.1, ha1, ?_⟩
          rw [zip_get?_eq 0 0 modes spatial a.1 ha1 (hlen ▸ ha1)] at ha
          have ha2 := Option.some.inj ha
          rw [← hfa] at hlt
          simp only [pyPairLt, ← ha2, padHigh] at hlt ⊢
          split at hlt <;> simp_all
      case isFalse =>
        exact absurd he (by simp)
    · rintro ⟨i, hi, hneg⟩
      refine ⟨"Too many modes for input shape!", ?_⟩
      rw [build]
      split
      case isTrue => rfl
      case isFalse hcond =>
        exfalso
        rw [Ne, not_not, List.filter_eq_nil_iff] at hcond
        have hmem : ((0 : Int), padHigh modes spatial i) ∈
            pad_width modes (batch :: (spatial ++ [ch])) := by
          have h2 : (pad_width modes (batch :: (spatial ++ [ch]))).get? (i + 2) =
              some (0, padHigh modes spatial i) := by
            simp only [pad_width, hzip, List.cons_append, List.nil_append,
              List.get?_cons_succ, List.get?_map, List.get?_enum]
            rw [zip_get?_eq 0 0 modes spatial i hi (hlen ▸ hi)]
            simp [padHigh]
          exact List.get?_mem h2
        have := hcond _ hmem
        simp [pyPairLt] at this
        omega

/-- Witness for C7: the padding-plan theorem applied to a concrete rank-2
configuration, `modes = (2, 2)` on input shape `(1, 4, 4, 3)`. -/
theorem c7_build_pad_plan_witness :
    (pad_width [2, 2] ((1 : Int) :: (([4, 4] : List Int) ++ [3]))).take 2 =
      [(0, 0), (0, 0)] ∧
    (∀ i, i < ([2, 2] : List Int).length →
      (pad_width [2, 2] ((1 : Int) :: (([4, 4] : List Int) ++ [3]))).get? (i + 2) =
        some (0, padHigh [2, 2] [4, 4] i)) ∧
    ((∃ e, build 4 [2, 2] ((1 : Int) :: (([4, 4] : List Int) ++ [3])) true =
        .error e) ↔
      ∃ i, i < ([2, 2] : List Int).length ∧ padHigh [2, 2] [4, 4] i < 0) :=
  c7_build_pad_plan 4 1 3 true [2, 2] [4, 4] (by decide)

/-- Witness for C10: construction succeeds at `filters = None, modes = (4,)`
and at `filters = 2, modes = (-3,)`. -/
theorem c10_constructor_acceptance_gaps_witness :
    initCheck none [4] "channels_last" = .ok () ∧
    initCheck (some 2) [-3] "channels_last" = .ok () := by
  constructor
  · exact c10_constructor_acceptance_gaps.1 [4] (by decide)
  · exact c10_constructor_acceptance_gaps.2 2 [-3] (by decide)
      (by intro m hm; simp at hm; omega)

/-! ### Spectral shift (`BaseSpectralConv.rfft_shift`, lines 241-260)

The method iterates `for a, m in zip(range(len(self.modes), shape - 1),
self.modes)` where `shape = ops.ndim(inputs)` and rolls `inputs` by
`-m // 2` along axis `a`.  `shiftPlan` transcribes the loop's list of
`(axis, shift)` pairs; the `rfftShiftN` functions apply it to tensors of the
corresponding rank (canonical layout: batch, channel, then spatial axes). -/

/-- Index map of `numpy.roll` along one axis of size `n` with shift `s`:
entry `i` of the result is entry `(i - s) % n` of the input. -/
def rollIdx (n s : Int) (i : Nat) : Nat := (pyMod ((i : Int) - s) n).toNat

/-- List of `(axis, shift)` roll operations performed by `rfft_shift`
(lines 255-258): axes `range(len(modes), ndim - 1)` zipped with `modes`,
shift `-m // 2` each. -/
def shiftPlan (ndim : Nat) (modes : List Int) : List (Nat × Int) :=
  ((List.range' modes.length (ndim - 1 - modes.length)).zip modes).map
    (fun p => (p.1, pyDiv (-p.2) 2))

/-- Roll of a 3-axis tensor along axis `axis` (of size `n`) by `s`. -/
def roll3 {α : Type} (n : Int) (axis : Nat) (s : Int) (x : ℕ → ℕ → ℕ → α) :
    ℕ → ℕ → ℕ → α :=
  fun a b c =>
    match axis with
    | 0 => x (rollIdx n s a) b c
    | 1 => x a (rollIdx n s b) c
    | _ => x a b (rollIdx n s c)

/-- Roll of a 4-axis tensor along axis `axis` (of size `n`) by `s`. -/
def roll4 {α : Type} (n : Int) (axis : Nat) (s : Int) (x : ℕ → ℕ → ℕ → ℕ → α) :
    ℕ → ℕ → ℕ → ℕ → α :=
  fun a b c d =>
    match axis with
    | 0 => x (rollIdx n s a) b c d
    | 1 => x a (rollIdx n s b) c d
    | 2 => x a b (rollIdx n s c) d
    | _ => x a b c (rollIdx n s d)

/-- Roll of a 5-axis tensor along axis `axis` (of size `n`) by `s`. -/
def roll5 {α : Type} (n : Int) (axis : Nat) (s : Int)
    (x : ℕ → ℕ → ℕ → ℕ → ℕ → α) : ℕ → ℕ → ℕ → ℕ → ℕ → α :=
  fun a b c d e =>
    match axis with
    | 0 => x (rollIdx n s a) b c d e
    | 1 => x a (rollIdx n s b) c d e
    | 2 => x a b (rollIdx n s c) d e
    | 3 => x a b c (rollIdx n s d) e
    | _ => x a b c d (rollIdx n s e)

/-- Embedding of `rfft_shift` for 3-axis tensors (`ndim = 3`, the rank-1
layer): applies every roll of `shiftPlan` in order; each roll reads the size
of its axis from `shape`. -/
def rfftShift3 {α : Type} (shape : List Int) (modes : List Int)
    (x : ℕ → ℕ → ℕ → α) : ℕ → ℕ → ℕ → α :=
  (shiftPlan 3 modes).foldl (fun acc p => roll3 (shape.getD p.1 1) p.1 p.2 acc) x

/-- Embedding of `rfft_shift` for 4-axis tensors (`ndim = 4`, the rank-2
layer). -/
def rfftShift4 {α : Type} (shape : List Int) (modes : List Int)
    (x : ℕ → ℕ → ℕ → ℕ → α) : ℕ → ℕ → ℕ → ℕ → α :=
  (shiftPlan 4 modes).foldl (fun acc p => roll4 (shape.getD p.1 1) p.1 p.2 acc) x

/-- Embedding of `rfft_shift` for 5-axis tensors (`ndim = 5`, the rank-3
layer). -/
def rfftShift5 {α : Type} (shape : List Int) (modes : List Int)
    (x : ℕ → ℕ → ℕ → ℕ → ℕ → α) : ℕ → ℕ → ℕ → ℕ → ℕ → α :=
  (shiftPlan 5 modes).foldl (fun acc p => roll5 (shape.getD p.1 1) p.1 p.2 acc) x

/-- Concrete rank-1 transformed tensor of shape `(1, 2, 3)` whose value is its
channel index (axis 1). -/
def c5ChannelTensor : ℕ → ℕ → ℕ → Int := fun _ c _ => (c : Int)

/-- Concrete rank-3 transformed tensor of shape `(1, 1, 4, 4, 3)` whose value
is its first spatial-frequency index (axis 2). -/
def c5Axis2Tensor : ℕ → ℕ → ℕ → ℕ → ℕ → Int := fun _ _ i _ _ => (i : Int)

/-- Concrete rank-3 transformed tensor of shape `(1, 1, 4, 4, 3)` whose value
is its second spatial-frequency index (axis 3). -/
def c5Axis3Tensor : ℕ → ℕ → ℕ → ℕ → ℕ → Int := fun _ _ _ j _ => (j : Int)

/-- C5 fails on the code: the forward spectral shift does not roll
"every transformed spatial axis except the last one and no other axis".
For `rank = 1` (ndim 3, `modes = (2,)`, 2 channels) the loop rolls the
channel axis (axis 1) by `-1`, so the tensor changes even though the claim
says no axis is shifted at all; for `rank = 3` (ndim 5, `modes = (4, 2, 2)`)
the loop rolls only axis 3 — axis 2 is left untouched — and it rolls axis 3
by `-modes[0] // 2 = -2` instead of the claimed
`-modes[1] // 2 = -1`. -/
theorem c5_forward_shift_wrong_axes :
    rfftShift3 [1, 2, 3] [2] c5ChannelTensor 0 0 0 = 1 ∧
    c5ChannelTensor 0 0 0 = 0 ∧
    (∀ a b i j k, rfftShift5 [1, 1, 4, 4, 3] [4, 2, 2] c5Axis2Tensor a b i j k =
      c5Axis2Tensor a b i j k) ∧
    rfftShift5 [1, 1, 4, 4, 3] [4, 2, 2] c5Axis3Tensor 0 0 0 0 0 = 2 ∧
    c5Axis3Tensor 0 0 0 0 0 = 0 := by
  refine ⟨by decide, by decide, ?_, by decide, by decide⟩
  intro a b i j k
  show c5Axis2Tensor a b i (rollIdx 4 (pyDiv (-4) 2) j) k = c5Axis2Tensor a b i j k
  rfl

/-- Concrete rank-2 transformed tensor of shape `(1, 1, 3, 3)` whose value is
its first spatial-frequency index (axis 2). -/
def c4Axis2Tensor : ℕ → ℕ → ℕ → ℕ → Int := fun _ _ i _ => (i : Int)

/-- C4 fails on the code: the reconstruction applies `rfft_shift` itself — a
circular shift of `-modes[i] // 2`, the same direction as the forward shift —
so composing the forward shift with the reconstruction shift is a net roll of
`-2 * (modes[i] // 2)`, not the identity.  Concretely for `rank = 2`,
`modes = (2, 2)` and spatial extents `(3, 3)`, the composed shift moves the
entry at axis-2 index 2 to index 0. -/
theorem c4_reconstruction_shift_not_inverse :
    rfftShift4 [1, 1, 3, 3] [2, 2]
      (rfftShift4 [1, 1, 3, 3] [2, 2] c4Axis2Tensor) 0 0 0 0 = 2 ∧
    c4Axis2Tensor 0 0 0 0 = 0 := by
  exact ⟨by decide, by decide⟩

/-! ### Broadcasting of the bias over the padded frequency tensor (C9)

The forward pass adds `self.bias` (shape `(filters, 1, ..., 1)`, line 134) to
the padded coefficient tensors of shape `(batch, filters,
*fullTransformedExtents)` (lines 308-314).  Broadcasting follows the numpy
rule: shapes are aligned at their trailing ends, missing leading axes act as
size 1, and two sizes are compatible when they are equal or one of them is 1. -/

/-- Broadcast of a single pair of axis sizes (numpy rule). -/
def broadcastDim (a b : Int) : Option Int :=
  if a = b then some a else if a = 1 then some b else if b = 1 then some a
  else none

/-- Broadcast of a list of aligned axis-size pairs; `none` when some pair is
incompatible. -/
def broadcastAll : List (Int × Int) → Option (List Int)
  | [] => some []
  | p :: t => do
    let d ← broadcastDim p.1 p.2
    let r ← broadcastAll t
    pure (d :: r)

/-- Broadcast of two shapes: align at the trailing end (pad the shorter shape
with leading 1s), then combine axis sizes pointwise; `none` when some pair of
sizes is incompatible. -/
def broadcastShapes (a b : List Int) : Option (List Int) :=
  broadcastAll
    ((List.replicate (max a.length b.length - a.length) 1 ++ a).zip
      (List.replicate (max a.length b.length - b.length) 1 ++ b))

/-- Extents of the padded frequency-domain tensor's spatial axes: each retained
mode count plus the high-side pad of its axis (`ops.pad` with `pad_width`,
lines 308-309). -/
def fullExtents (modes : List Int) (inputShape : List Int) : List Int :=
  List.zipWith (fun m p => m + p.2) modes ((pad_width modes inputShape).drop 2)

/-- Helper: unfolding of `broadcastAll` on a cons cell. -/
theorem broadcastAll_cons (p : Int × Int) (t : List (Int × Int)) :
    broadcastAll (p :: t) =
      (broadcastDim p.1 p.2).bind (fun d =>
        (broadcastAll t).bind (fun r => some (d :: r))) := rfl

/-- Helper: broadcasting a run of 1s against any list of sizes yields that
list. -/
theorem broadcastAll_replicate_one (l : List Int) :
    broadcastAll ((List.replicate l.length 1).zip l) = some l := by
  induction l with
  | nil => rfl
  | cons a t ih =>
    rw [List.length_cons, List.replicate_succ, List.zip_cons_cons,
      broadcastAll_cons, ih]
    by_cases ha : (1 : Int) = a
    · simp [broadcastDim, ← ha]
    · simp [broadcastDim, ha]

/-- Helper: a shape `(filters, 1, ..., 1)` broadcasts against
`(batch, filters, *E)` to exactly `(batch, filters, *E)` when the number of
trailing 1s equals the number of extra axes `E`. -/
theorem broadcastShapes_bias_shape (f batch : Int) (E : List Int) :
    broadcastShapes (f :: List.replicate E.length 1) (batch :: f :: E) =
      some (batch :: f :: E) := by
  have h1 : (f :: List.replicate E.length 1).length = E.length + 1 := by simp
  have h2 : (batch :: f :: E).length = E.length + 2 := by simp
  unfold broadcastShapes
  rw [h1, h2]
  have hmax : max (E.length + 1) (E.length + 2) = E.length + 2 := by omega
  rw [hmax, show E.length + 2 - (E.length + 1) = 1 from by omega,
    show E.length + 2 - (E.length + 2) = 0 from by omega]
  simp only [List.replicate_one, List.replicate_zero, List.nil_append,
    List.singleton_append, List.zip_cons_cons]
  rw [broadcastAll_cons, broadcastAll_cons, broadcastAll_replicate_one E]
  by_cases hb : (1 : Int) = batch
  · simp [broadcastDim, ← hb]
  · simp [broadcastDim, hb]

/-- C9: for every successfully built layer of rank 1, 2, or 3, the bias shape
`(filters, 1, ..., 1)` (with `rank` trailing singleton axes) broadcasts
against the padded frequency tensor shape
`(batch, filters, *fullTransformedExtents)`, and the broadcast result is
exactly the padded tensor's shape — the bias `filters` axis aligning with the
channel axis. -/
theorem c9_bias_broadcastable (filters batch ch : Int) (rank : Nat)
    (modes spatial : List Int) (st : BuiltState)
    (hrank : rank = 1 ∨ rank = 2 ∨ rank = 3) (hm : modes.length = rank)
    (hs : spatial.length = rank)
    (hbuild : build filters modes (batch :: (spatial ++ [ch])) true = .ok st)
    (bs : List Int) (hbias : st.biasShape = some bs) :
    broadcastShapes bs
        (batch :: filters :: fullExtents modes (batch :: (spatial ++ [ch]))) =
      some (batch :: filters ::
        fullExtents modes (batch :: (spatial ++ [ch]))) := by
  have hbs : bs = filters :: List.replicate rank 1 := by
    rw [build] at hbuild
    split at hbuild
    · exact absurd hbuild (by simp)
    · rw [← Except.ok.inj hbuild] at hbias
      simp only [if_pos rfl] at hbias
      rw [hm] at hbias
      exact (Option.some.inj hbias).symm
  have hE : (fullExtents modes (batch :: (spatial ++ [ch]))).length = rank := by
    simp [fullExtents, pad_width, List.enum_length, hm, hs]
  rw [hbs, ← hE]
  exact broadcastShapes_bias_shape filters batch _

/-- Witness for C9: rank 2, `filters = 4`, `modes = (2, 2)`, input shape
`(1, 4, 4, 3)`: the bias shape `(4, 1, 1)` broadcasts against the padded
tensor shape to exactly that shape. -/
theorem c9_bias_broadcastable_witness :
    broadcastShapes [4, 1, 1]
        ((1 : Int) :: (4 : Int) ::
          fullExtents [2, 2] ((1 : Int) :: (([4, 4] : List Int) ++ [3]))) =
      some ((1 : Int) :: (4 : Int) ::
        fullExtents [2, 2] ((1 : Int) :: (([4, 4] : List Int) ++ [3]))) :=
  c9_bias_broadcastable 4 1 3 2 [2, 2] [4, 4]
    { kernelShape := [3, 4, 2, 2], biasShape := some [4, 1, 1] }
    (Or.inr (Or.inl rfl)) (by decide) (by decide) rfl [4, 1, 1] rfl

/-! ### Forward spectral mixing (C1)

The forward einsum `self.einsum_op_forward = "bi{X},io{X}->bo{X}"`
(line 173) contracts the input-channel axis `i` pointwise in the batch index
`b`, the output channel `o` and the retained mode multi-index; the mode
multi-index is an arbitrary type `ι` so that one definition covers ranks
1 to 3. -/

/-- Forward einsum contraction `"bi{X},io{X}->bo{X}"`: sum over the
`inChannels` input channels, elementwise in batch, output channel and mode
index. -/
def einsum_op_forward {R : Type} [CommRing R] {ι : Type} (inChannels : ℕ)
    (x : ℕ → ℕ → ι → R) (w : ℕ → ℕ → ι → R) : ℕ → ℕ → ι → R :=
  fun b o μ => ∑ i in Finset.range inChannels, x b i μ * w i o μ

/-- Line 305 (tensorflow path): the mixed real component
`einsum(xr, Wr) - einsum(xi, Wi)`. -/
def y_hat_real_truncated_tf {R : Type} [CommRing R] {ι : Type} (inChannels : ℕ)
    (xr xi wr wi : ℕ → ℕ → ι → R) : ℕ → ℕ → ι → R :=
  fun b o μ => einsum_op_forward inChannels xr wr b o μ -
    einsum_op_forward inChannels xi wi b o μ

/-- Line 306 (tensorflow path): the mixed imaginary component, written in the
source as `einsum(xr, Wr) - einsum(xi, Wi)` as well. -/
def y_hat_imag_truncated_tf {R : Type} [CommRing R] {ι : Type} (inChannels : ℕ)
    (xr xi wr wi : ℕ → ℕ → ι → R) : ℕ → ℕ → ι → R :=
  fun b o μ => einsum_op_forward inChannels xr wr b o μ -
    einsum_op_forward inChannels xi wi b o μ

/-- Line 410 (jax path): the mixed real component. -/
def y_hat_real_truncated_jax {R : Type} [CommRing R] {ι : Type} (inChannels : ℕ)
    (xr xi wr wi : ℕ → ℕ → ι → R) : ℕ → ℕ → ι → R :=
  fun b o μ => einsum_op_forward inChannels xr wr b o μ -
    einsum_op_forward inChannels xi wi b o μ

/-- Line 411 (jax path): the mixed imaginary component, again
`einsum(xr, Wr) - einsum(xi, Wi)`. -/
def y_hat_imag_truncated_jax {R : Type} [CommRing R] {ι : Type} (inChannels : ℕ)
    (xr xi wr wi : ℕ → ℕ → ι → R) : ℕ → ℕ → ι → R :=
  fun b o μ => einsum_op_forward inChannels xr wr b o μ -
    einsum_op_forward inChannels xi wi b o μ

/-- C1: in both execution paths the two mixed output components are computed
by the identical expression `einsum(xr, Wr) - einsum(xi, Wi)`, so for every
channel count, every truncated input pair and every kernel pair the real and
imaginary mixed components are equal as functions — and the tensorflow and
jax paths agree. -/
theorem c1_mixing_components_identical {ι : Type} (inChannels : ℕ)
    (xr xi wr wi : ℕ → ℕ → ι → ℝ) :
    y_hat_real_truncated_tf inChannels xr xi wr wi =
      y_hat_imag_truncated_tf inChannels xr xi wr wi ∧
    y_hat_real_truncated_jax inChannels xr xi wr wi =
      y_hat_imag_truncated_jax inChannels xr xi wr wi ∧
    y_hat_real_truncated_tf inChannels xr xi wr wi =
      y_hat_real_truncated_jax inChannels xr xi wr wi := by
  exact ⟨rfl, rfl, rfl⟩

/-! ### Serialization round trip (C6)

`get_config` (lines 454-484) stores the constructor parameters under the keys
`"kernel_initializer"`, `"bias_initializer"`, ... on top of the base `Layer`
config; `from_config` (lines 486-521) starts with
`config.pop("kernel_initialzer")` and `config.pop("bias_initialzer")` —
misspelt keys, popped without a default, which raises `KeyError` when the key
is absent.  Configurations are modelled as association lists with opaque
string values; the serialize/deserialize calls on the opaque initializer,
regularizer and constraint values are modelled as the identity. -/

/-- Python `dict.pop(key)` without default on an association list: the value
and the dictionary without the key, or a `KeyError` carrying the key. -/
def popKey (c : List (String × String)) (k : String) :
    Except String (String × List (String × String)) :=
  match c.find? (fun p => p.1 == k) with
  | some p => .ok (p.2, c.filter (fun q => q.1 != k))
  | none => .error k

/-- Embedding of `get_config` (lines 454-484): the base `Layer` config plus
the ten parameters stored by `BaseSpectralConv.get_config`, in source order,
with opaque serialized values. -/
def get_config (base : List (String × String))
    (fv mv dv uv kiv biv kcv bcv krv brv : String) :
    List (String × String) :=
  base ++ [("filters", fv), ("modes", mv), ("data_format", dv),
    ("use_bias", uv), ("kernel_initializer", kiv), ("bias_initializer", biv),
    ("kernel_constraint", kcv), ("bias_constraint", bcv),
    ("kernel_regularizer", krv), ("bias_regularizer", brv)]

/-- Embedding of `from_config` (lines 486-521): pops the six
initializer/constraint/regularizer entries — the first two under the misspelt
keys `"kernel_initialzer"` and `"bias_initialzer"` (lines 505-506) — then
re-inserts them deserialized and returns the keyword arguments passed to the
constructor. -/
def from_config (c : List (String × String)) :
    Except String (List (String × String)) := do
  let (kiv, c) ← popKey c ("kernel_initialzer")
  let (biv, c) ← popKey c ("bias_initialzer")
  let (kcv, c) ← popKey c ("kernel_constraint")
  let (bcv, c) ← popKey c ("bias_constraint")
  let (krv, c) ← popKey c ("kernel_regularizer")
  let (brv, c) ← popKey c ("bias_regularizer")
  pure (c ++ [("kernel_initializer", kiv), ("bias_initializer", biv),
    ("kernel_constraint", kcv), ("bias_constraint", bcv),
    ("kernel_regularizer", krv), ("bias_regularizer", brv)])

/-- C6 fails on the code: `from_config(get_config())` does not round-trip.
`get_config` stores the key `"kernel_initializer"` but `from_config` pops
`"kernel_initialzer"` (a misspelling, line 505), which is never present, so
deserialization raises `KeyError("kernel_initialzer")` instead of
reconstructing the layer.  Shown here on a default-constructed layer whose
base `Layer` config holds the keys `name`, `trainable` and `dtype`. -/
theorem c6_config_round_trip_fails :
    from_config (get_config
        [("name", "base_spectral_conv"), ("trainable", "true"),
          ("dtype", "float32")]
        "4" "(2, 2)" "channels_last" "true" "he_normal" "zeros" "none" "none"
        "none" "none") =
      .error ("kernel_initialzer") := by
  rfl

/-! ### Rank-1 forward pipeline and manual backward pass (C2, C3)

Tensors in canonical layout are total functions `ℕ → ℕ → ℕ → R` over
(batch, channel, feature) indices; the layer reads them only inside its
shapes.  The pipeline below transcribes `call` for the rank-1 layer: the
tensorflow forward (lines 295-321) and the jax forward (lines 399-428)
perform the same forward math; the tensorflow path additionally registers
`backprop` (lines 323-378), transcribed further down.

The repository's FFT module `keras_addon.ops.fft` (imported at line 44) is
not under `src/`, so the transform pair is modelled from the spec (§4.2,
§4.4): a real-to-complex discrete Fourier transform along the trailing axis
returning real and imaginary parts, and its real-valued inverse on the
half-spectrum layout of length `N // 2 + 1`, in the standard numpy/tensorflow
convention (forward unnormalized, inverse scaled by `1 / N`).  To keep the
pipeline computable the trigonometric kernel is a parameter
`co si : ℕ → ℕ → ℕ → R` (arguments `N j k`, standing for `cos (2πjk/N)` and
`sin (2πjk/N)`); the claim theorems instantiate it with `Real.cos` and
`Real.sin`. -/

/-- Rank-1 `transpose_op` (build, lines 81-84): permutation `(0, 2, 1)`,
moving the channel axis next to the batch axis. -/
def transpose_op1 {α : Type} (x : ℕ → ℕ → ℕ → α) : ℕ → ℕ → ℕ → α :=
  fun a b c => x a c b

/-- Rank-1 `inverse_transpose_op` (build, lines 82-85): permutation
`(0, 2, 1)`, its own inverse for rank 1. -/
def inverse_transpose_op1 {α : Type} (x : ℕ → ℕ → ℕ → α) : ℕ → ℕ → ℕ → α :=
  fun a b c => x a c b

/-- Modelled from the spec (§4.2): real part of the length-`N` DFT along the
last axis, `X_k = ∑_j x_j cos(2πjk/N)`. -/
def rfft_re {R : Type} [Field R] (co : ℕ → ℕ → ℕ → R) (N : ℕ)
    (x : ℕ → ℕ → ℕ → R) : ℕ → ℕ → ℕ → R :=
  fun b c k => ∑ j in Finset.range N, x b c j * co N j k

/-- Modelled from the spec (§4.2): imaginary part of the length-`N` DFT along
the last axis, `-∑_j x_j sin(2πjk/N)`. -/
def rfft_im {R : Type} [Field R] (si : ℕ → ℕ → ℕ → R) (N : ℕ)
    (x : ℕ → ℕ → ℕ → R) : ℕ → ℕ → ℕ → R :=
  fun b c k => -∑ j in Finset.range N, x b c j * si N j k

/-- Hermitian extension (real part) of a half-spectrum tensor to all `N`
frequency bins: bins beyond `N // 2` mirror their conjugate partners. -/
def herm_re {R : Type} (N : ℕ) (xr : ℕ → ℕ → ℕ → R) : ℕ → ℕ → ℕ → R :=
  fun b c k => if k ≤ N / 2 then xr b c k else xr b c (N - k)

/-- Hermitian extension (imaginary part): mirrored bins are negated. -/
def herm_im {R : Type} [Neg R] (N : ℕ) (xi : ℕ → ℕ → ℕ → R) :
    ℕ → ℕ → ℕ → R :=
  fun b c k => if k ≤ N / 2 then xi b c k else -(xi b c (N - k))

/-- Modelled from the spec (§4.4): real-valued inverse of the half-spectrum
DFT, `y_j = (1/N) ∑_k Re(X̂_k e^{2πijk/N})` over the Hermitian extension
`X̂`. -/
def irfft1 {R : Type} [Field R] (co si : ℕ → ℕ → ℕ → R) (N : ℕ)
    (xr xi : ℕ → ℕ → ℕ → R) : ℕ → ℕ → ℕ → R :=
  fun b c j =>
    (∑ k in Finset.range N,
      (herm_re N xr b c k * co N j k - herm_im N xi b c k * si N j k)) / N

/-- Real part of `x_hat` after `self.rfft` (transpose + rfft, lines 204-205 and
295) and the spectral shift (line 298): the shift acts on the
`(batch, cin, N // 2 + 1)` tensor. -/
def x_hat_real_shifted {R : Type} [Field R] (co : ℕ → ℕ → ℕ → R)
    (batch N cin m : ℕ) (x : ℕ → ℕ → ℕ → R) : ℕ → ℕ → ℕ → R :=
  rfftShift3 [(batch : Int), (cin : Int), ((N / 2 + 1 : ℕ) : Int)]
    [(m : Int)] (rfft_re co N (transpose_op1 x))

/-- Imaginary part of `x_hat` after `self.rfft` and the spectral shift
(line 299). -/
def x_hat_imag_shifted {R : Type} [Field R] (si : ℕ → ℕ → ℕ → R)
    (batch N cin m : ℕ) (x : ℕ → ℕ → ℕ → R) : ℕ → ℕ → ℕ → R :=
  rfftShift3 [(batch : Int), (cin : Int), ((N / 2 + 1 : ℕ) : Int)]
    [(m : Int)] (rfft_im si N (transpose_op1 x))

/-- Zero padding `ops.pad(..., pad_width)` of a rank-1 truncated tensor
(lines 308-309): values are kept on the first `m` frequency bins and zero on
every later bin. -/
def pad3 {R : Type} [Field R] (m : ℕ) (x : ℕ → ℕ → ℕ → R) : ℕ → ℕ → ℕ → R :=
  fun b o k => if k < m then x b o k else 0

/-- Real component entering the inverse spectral shift in the forward pass:
mixing (line 305/410), then zero padding (line 308/413), then — after the
padding — the bias addition (lines 312-314 / 417-419). -/
def y_hat_real_preshift {R : Type} [Field R] (co si : ℕ → ℕ → ℕ → R)
    (batch N cin m : ℕ) (useBias : Bool) (wr wi : ℕ → ℕ → ℕ → R)
    (bias : ℕ → R) (x : ℕ → ℕ → ℕ → R) : ℕ → ℕ → ℕ → R :=
  let padded := pad3 m (y_hat_real_truncated_jax cin
    (x_hat_real_shifted co batch N cin m x)
    (x_hat_imag_shifted si batch N cin m x) wr wi)
  if useBias then (fun b o k => padded b o k + bias o) else padded

/-- Imaginary component entering the inverse spectral shift in the forward
pass (lines 306/411, 309/414, 313-314/418-419). -/
def y_hat_imag_preshift {R : Type} [Field R] (co si : ℕ → ℕ → ℕ → R)
    (batch N cin m : ℕ) (useBias : Bool) (wr wi : ℕ → ℕ → ℕ → R)
    (bias : ℕ → R) (x : ℕ → ℕ → ℕ → R) : ℕ → ℕ → ℕ → R :=
  let padded := pad3 m (y_hat_imag_truncated_jax cin
    (x_hat_real_shifted co batch N cin m x)
    (x_hat_imag_shifted si batch N cin m x) wr wi)
  if useBias then (fun b o k => padded b o k + bias o) else padded

/-- Forward computation of `call` for a rank-1 layer (identical math in the
tensorflow forward, lines 295-321, and the jax path, lines 399-428):
rfft + shift + truncate + mix + pad + bias + shift + irfft + inverse
transpose. -/
def call_forward1 {R : Type} [Field R] (co si : ℕ → ℕ → ℕ → R)
    (batch N cin cout m : ℕ) (useBias : Bool) (wr wi : ℕ → ℕ → ℕ → R)
    (bias : ℕ → R) (x : ℕ → ℕ → ℕ → R) : ℕ → ℕ → ℕ → R :=
  inverse_transpose_op1 (irfft1 co si N
    (rfftShift3 [(batch : Int), (cout : Int), ((N / 2 + 1 : ℕ) : Int)]
      [(m : Int)] (y_hat_real_preshift co si batch N cin m useBias wr wi bias x))
    (rfftShift3 [(batch : Int), (cout : Int), ((N / 2 + 1 : ℕ) : Int)]
      [(m : Int)] (y_hat_imag_preshift co si batch N cin m useBias wr wi bias x)))

/-- Backward einsum `"bo{X},bi{X}->io{X}"` (line 178): contraction over the
batch axis. -/
def einsum_op_backprop_weights {R : Type} [CommRing R] (batch : ℕ)
    (dy x : ℕ → ℕ → ℕ → R) : ℕ → ℕ → ℕ → R :=
  fun i o k => ∑ b in Finset.range batch, dy b o k * x b i k

/-- Backward einsum `"bo{X},io{X}->bi{X}"` (line 179): contraction over the
output-channel axis. -/
def einsum_op_backprop_x {R : Type} [CommRing R] (cout : ℕ)
    (dy w : ℕ → ℕ → ℕ → R) : ℕ → ℕ → ℕ → R :=
  fun b i k => ∑ o in Finset.range cout, dy b o k * w i o k

/-- Backward einsum `"bo{X}->o"` (line 180): sum over the batch axis and the
`m` retained modes of the truncated tensor. -/
def einsum_op_backprop_bias {R : Type} [CommRing R] (batch m : ℕ)
    (dy : ℕ → ℕ → ℕ → R) : ℕ → R :=
  fun o => ∑ b in Finset.range batch, ∑ k in Finset.range m, dy b o k

/-- Real part of `dy_hat` in `backprop` (lines 343-347): `self.rfft(dy)`
followed by the spectral shift, on the `(batch, cout, N // 2 + 1)` tensor. -/
def dy_hat_real_shifted {R : Type} [Field R] (co : ℕ → ℕ → ℕ → R)
    (batch N cout m : ℕ) (dy : ℕ → ℕ → ℕ → R) : ℕ → ℕ → ℕ → R :=
  rfftShift3 [(batch : Int), (cout : Int), ((N / 2 + 1 : ℕ) : Int)]
    [(m : Int)] (rfft_re co N (transpose_op1 dy))

/-- Imaginary part of `dy_hat` in `backprop` (lines 343-347). -/
def dy_hat_imag_shifted {R : Type} [Field R] (si : ℕ → ℕ → ℕ → R)
    (batch N cout m : ℕ) (dy : ℕ → ℕ → ℕ → R) : ℕ → ℕ → ℕ → R :=
  rfftShift3 [(batch : Int), (cout : Int), ((N / 2 + 1 : ℕ) : Int)]
    [(m : Int)] (rfft_im si N (transpose_op1 dy))

/-- Gradient of the real kernel returned by `backprop` (line 354):
`einsum(dy_hat_real, x_hat_real) + einsum(dy_hat_imag, x_hat_imag)`. -/
def backprop_dw_real {R : Type} [Field R] (co si : ℕ → ℕ → ℕ → R)
    (batch N cin cout m : ℕ) (x dy : ℕ → ℕ → ℕ → R) : ℕ → ℕ → ℕ → R :=
  fun i o k =>
    einsum_op_backprop_weights batch (dy_hat_real_shifted co batch N cout m dy)
      (x_hat_real_shifted co batch N cin m x) i o k +
    einsum_op_backprop_weights batch (dy_hat_imag_shifted si batch N cout m dy)
      (x_hat_imag_shifted si batch N cin m x) i o k

/-- Gradient of the imaginary kernel returned by `backprop` (line 355). -/
def backprop_dw_imag {R : Type} [Field R] (co si : ℕ → ℕ → ℕ → R)
    (batch N cin cout m : ℕ) (x dy : ℕ → ℕ → ℕ → R) : ℕ → ℕ → ℕ → R :=
  fun i o k =>
    einsum_op_backprop_weights batch (dy_hat_real_shifted co batch N cout m dy)
      (x_hat_imag_shifted si batch N cin m x) i o k -
    einsum_op_backprop_weights batch (dy_hat_imag_shifted si batch N cout m dy)
      (x_hat_real_shifted co batch N cin m x) i o k

/-- Gradient of the bias returned by `backprop` (line 359): sum of
`dy_hat_real + dy_hat_imag` over batch and modes. -/
def backprop_db {R : Type} [Field R] (co si : ℕ → ℕ → ℕ → R)
    (batch N cout m : ℕ) (dy : ℕ → ℕ → ℕ → R) : ℕ → R :=
  einsum_op_backprop_bias batch m (fun b o k =>
    dy_hat_real_shifted co batch N cout m dy b o k +
    dy_hat_imag_shifted si batch N cout m dy b o k)

/-- Gradient of the input returned by `backprop` (lines 362-374): backward
einsums against the kernels, zero padding, inverse shift, irfft and inverse
transpose. -/
def backprop_dx {R : Type} [Field R] (co si : ℕ → ℕ → ℕ → R)
    (batch N cin cout m : ℕ) (wr wi : ℕ → ℕ → ℕ → R) (dy : ℕ → ℕ → ℕ → R) :
    ℕ → ℕ → ℕ → R :=
  let dyr := dy_hat_real_shifted co batch N cout m dy
  let dyi := dy_hat_imag_shifted si batch N cout m dy
  let dxr := pad3 m (fun b i k =>
    einsum_op_backprop_x cout dyr wr b i k +
    einsum_op_backprop_x cout dyi wi b i k)
  let dxi := pad3 m (fun b i k =>
    einsum_op_backprop_x cout dyi wr b i k -
    einsum_op_backprop_x cout dyr wi b i k)
  inverse_transpose_op1 (irfft1 co si N
    (rfftShift3 [(batch : Int), (cin : Int), ((N / 2 + 1 : ℕ) : Int)]
      [(m : Int)] dxr)
    (rfftShift3 [(batch : Int), (cin : Int), ((N / 2 + 1 : ℕ) : Int)]
      [(m : Int)] dxi))

/-- Cosine DFT kernel, `cos (2πjk/N)`. -/
noncomputable def dftCos : ℕ → ℕ → ℕ → ℝ :=
  fun N j k => Real.cos (2 * Real.pi * j * k / N)

/-- Sine DFT kernel, `sin (2πjk/N)`. -/
noncomputable def dftSin : ℕ → ℕ → ℕ → ℝ :=
  fun N j k => Real.sin (2 * Real.pi * j * k / N)

/-- Concrete input for C3: the zero spatial tensor, rank 1, `N = 2`. -/
def c3x : ℕ → ℕ → ℕ → ℝ := fun _ _ _ => 0

/-- C3 fails on the code: with `use_bias` the bias is added AFTER the zero
padding (pad at lines 308-309/413-414, bias at lines 312-314/417-419), so the
tensors entering the inverse shift are not zero outside the retained mode
window.  Concretely for rank 1, `N = 2`, `modes = (1,)`, bias value 1 and
zero input, the coefficient at frequency bin `k = 1` — outside the retained
window `k < 1` — equals the bias value 1, not 0, on both the real and the
imaginary component. -/
theorem c3_bias_added_after_padding :
    y_hat_real_preshift dftCos dftSin 1 2 1 1 true
      (fun _ _ _ => 0) (fun _ _ _ => 0) (fun _ => 1) c3x 0 0 1 = 1 ∧
    y_hat_imag_preshift dftCos dftSin 1 2 1 1 true
      (fun _ _ _ => 0) (fun _ _ _ => 0) (fun _ => 1) c3x 0 0 1 = 1 ∧
    (1 : ℝ) ≠ 0 := by
  refine ⟨?_, ?_, one_ne_zero⟩ <;>
    simp [y_hat_real_preshift, y_hat_imag_preshift, pad3]

/-! ### C2: the manual tensorflow gradient versus the true derivative

Concrete built configuration: rank 1, `batch = 1`, one input channel, one
filter, spatial extent `N = 2`, `modes = (1,)`, no bias.  The input and the
upstream gradient put a unit impulse at spatial position 0. -/

/-- Helper: a roll along an axis of size 1 always reads index 0. -/
theorem rollIdx_one (s : Int) (i : ℕ) : rollIdx 1 s i = 0 := by
  simp [rollIdx, pyMod, Int.emod_one]

/-- Helper: `rfft_shift` on a 3-axis tensor with a single mode is one roll of
`-m // 2` along axis 1. -/
theorem rfftShift3_single {α : Type} (s0 s1 s2 m : Int) (x : ℕ → ℕ → ℕ → α)
    (b c k : ℕ) :
    rfftShift3 [s0, s1, s2] [m] x b c k =
      x b (rollIdx s1 (pyDiv (-m) 2) c) k := rfl

/-- Concrete input for C2: unit impulse at spatial position 0. -/
def c2x : ℕ → ℕ → ℕ → ℝ := fun _ j _ => if j = 0 then 1 else 0

/-- Concrete upstream gradient for C2: unit impulse at spatial position 0. -/
def c2dy : ℕ → ℕ → ℕ → ℝ := fun _ j _ => if j = 0 then 1 else 0

/-- Evaluation: the shifted real spectrum of `c2x` is constant 1. -/
theorem c2_xhat_re (b c k : ℕ) :
    x_hat_real_shifted dftCos 1 2 1 1 c2x b c k = 1 := by
  rw [x_hat_real_shifted, rfftShift3_single]
  simp [rfft_re, transpose_op1, c2x, dftCos, Finset.sum_range_succ]

/-- Evaluation: the shifted imaginary spectrum of `c2x` is zero. -/
theorem c2_xhat_im (b c k : ℕ) :
    x_hat_imag_shifted dftSin 1 2 1 1 c2x b c k = 0 := by
  rw [x_hat_imag_shifted, rfftShift3_single]
  simp [rfft_im, transpose_op1, c2x, dftSin, Finset.sum_range_succ]

/-- Evaluation: the shifted real spectrum of `c2dy` is constant 1. -/
theorem c2_dyhat_re (b c k : ℕ) :
    dy_hat_real_shifted dftCos 1 2 1 1 c2dy b c k = 1 := by
  rw [dy_hat_real_shifted, rfftShift3_single]
  simp [rfft_re, transpose_op1, c2dy, dftCos, Finset.sum_range_succ]

/-- Evaluation: the shifted imaginary spectrum of `c2dy` is zero. -/
theorem c2_dyhat_im (b c k : ℕ) :
    dy_hat_imag_shifted dftSin 1 2 1 1 c2dy b c k = 0 := by
  rw [dy_hat_imag_shifted, rfftShift3_single]
  simp [rfft_im, transpose_op1, c2dy, dftSin, Finset.sum_range_succ]

/-- Evaluation: the forward output of the C2 configuration with scalar real
kernel `w` and zero imaginary kernel is `w / 2` everywhere. -/
theorem c2_forward_eval (w : ℝ) (b j o : ℕ) :
    call_forward1 dftCos dftSin 1 2 1 1 1 false (fun _ _ _ => w)
      (fun _ _ _ => 0) (fun _ => 0) c2x b j o = w / 2 := by
  rw [call_forward1, inverse_transpose_op1]
  rw [irfft1]
  have hyr : ∀ c k, rfftShift3 [(1 : Int), (1 : Int), (2 : Int)] [(1 : Int)]
      (y_hat_real_preshift dftCos dftSin 1 2 1 1 false (fun _ _ _ => w)
        (fun _ _ _ => 0) (fun _ => 0) c2x) b c k =
      (if k < 1 then w else 0) := by
    intro c k
    rw [rfftShift3_single]
    simp only [y_hat_real_preshift, Bool.false_eq_true, if_false, pad3,
      y_hat_real_truncated_jax, einsum_op_forward, Finset.sum_range_one,
      c2_xhat_re, c2_xhat_im]
    simp
  have hyi : ∀ c k, rfftShift3 [(1 : Int), (1 : Int), (2 : Int)] [(1 : Int)]
      (y_hat_imag_preshift dftCos dftSin 1 2 1 1 false (fun _ _ _ => w)
        (fun _ _ _ => 0) (fun _ => 0) c2x) b c k =
      (if k < 1 then w else 0) := by
    intro c k
    rw [rfftShift3_single]
    simp only [y_hat_imag_preshift, Bool.false_eq_true, if_false, pad3,
      y_hat_imag_truncated_jax, einsum_op_forward, Finset.sum_range_one,
      c2_xhat_re, c2_xhat_im]
    simp
  simp only [Nat.cast_one, Nat.cast_ofNat]
  simp only [herm_re, herm_im, Finset.sum_range_succ, Finset.sum_range_zero]
  norm_num [hyr, hyi, dftCos, dftSin]

/-- Scalar loss `⟨dy, y⟩` of the C2 configuration, as a function of the
single real-kernel entry `w` (imaginary kernel zero, no bias): the sum of
`c2dy * call_forward1 ... c2x` over the output indices.  The layer output is
affine in `w`, so its true derivative is the slope of this function. -/
noncomputable def c2loss (w : ℝ) : ℝ :=
  ∑ b in Finset.range 1, ∑ j in Finset.range 2, ∑ o in Finset.range 1,
    c2dy b j o * call_forward1 dftCos dftSin 1 2 1 1 1 false
      (fun _ _ _ => w) (fun _ _ _ => 0) (fun _ => 0) c2x b j o

/-- Entry `(0, 0, 0)` of the real-kernel gradient returned by the manually
registered tensorflow backward function on the C2 configuration. -/
noncomputable def c2manual_dw_real : ℝ :=
  backprop_dw_real dftCos dftSin 1 2 1 1 1 c2x c2dy 0 0 0

/-- Evaluation: the C2 loss is `w / 2`. -/
theorem c2_loss_eval (w : ℝ) : c2loss w = w / 2 := by
  simp [c2loss, c2_forward_eval, c2dy, Finset.sum_range_succ]

/-- Evaluation: the manual real-kernel gradient of the C2 configuration is
1. -/
theorem c2_manual_eval : c2manual_dw_real = 1 := by
  simp [c2manual_dw_real, backprop_dw_real, einsum_op_backprop_weights,
    c2_dyhat_re, c2_dyhat_im, c2_xhat_re, c2_xhat_im]

/-- C2 fails on the code: on the modelled standard-convention transform pair,
the manually registered tensorflow backward function does not return the true
derivative of the forward computation.  For the rank-1 configuration
`batch = 1`, one input channel, one filter, `N = 2`, `modes = (1,)`, no bias,
input and upstream gradient both a unit impulse at position 0: the loss
`⟨dy, forward(x)⟩` equals `w / 2` as a function of the real-kernel entry `w`,
so its true derivative is `1/2` — automatic differentiation of the same
forward math yields `1/2` — while the manual backward returns a real-kernel
gradient of `1`.  (The manual path applies the unnormalized forward transform
to `dy` where the adjoint of the inverse transform — which carries the `1/N`
factor — would be required.) -/
theorem c2_manual_gradient_mismatch :
    (∀ w : ℝ, HasDerivAt c2loss (1 / 2) w) ∧
    c2manual_dw_real = 1 ∧ c2manual_dw_real ≠ 1 / 2 := by
  have hl : c2loss = fun w => w / 2 := funext c2_loss_eval
  refine ⟨?_, c2_manual_eval, ?_⟩
  · intro w
    rw [hl]
    simpa using (hasDerivAt_id w).div_const 2
  · rw [c2_manual_eval]
    norm_num

end SpectralConv
